import Mathlib

/-!
Verification of the diff-to-changed-lines mapper and the comment
filter/dispatch pipeline of `.github/scripts/gemini_review.py`.

The Python source is shallowly embedded: the pure mapper
`parse_diff_to_changed_lines` becomes a Lean function over `String`,
and `main`'s pipeline becomes a function parametrised by its external
collaborators (environment, event payload, AI call, review submission),
returning the run outcome, the printed log lines, and the outward
effects (AI requests, review submissions) as data.

A Python `set` of line numbers is embedded as a duplicate-free `List ℕ`
with membership-checking insertion (`setAdd`): only membership and
extension are ever performed on it, and on those operations the two
agree.
-/

set_option autoImplicit false

namespace GeminiReview

/-- Embedding of Python `set.add` on a set of integers represented as a
duplicate-free list: adding an element already present is a no-op. -/
def setAdd (s : List ℕ) (n : ℕ) : List ℕ :=
  if n ∈ s then s else s ++ [n]

/-! ## Patch Line Mapper (`parse_diff_to_changed_lines`)

The Python regex `^@@ -(\d+)(?:,\d+)? \+(\d+)(?:,\d+)? @@` is embedded as a
deterministic character-list scanner.  `\d` is modelled as an ASCII digit.
Since a digit is never a comma or a space, greedy digit runs make the regex
match deterministic, so the scanner below decides exactly the lines the
anchored `re.match` accepts, and computes capture group 2 (`new_start`). -/

/-- Take the leading run of ASCII digits from a character list. -/
def takeDigits : List Char → List Char × List Char
  | [] => ([], [])
  | c :: cs =>
    if c.isDigit then
      let (ds, rest) := takeDigits cs
      (c :: ds, rest)
    else ([], c :: cs)

/-- Decimal value of a digit list (embeds Python `int` on the captured digits). -/
def digitsToNat (ds : List Char) : ℕ :=
  ds.foldl (fun acc c => acc * 10 + (c.toNat - 48)) 0

/-- Parse `\d+`: at least one digit, greedily. -/
def parseNum (cs : List Char) : Option (ℕ × List Char) :=
  let (ds, rest) := takeDigits cs
  if ds = [] then none else some (digitsToNat ds, rest)

/-- Consume a literal character sequence, failing when it is absent. -/
def consumeLit : List Char → List Char → Option (List Char)
  | [], cs => some cs
  | _ :: _, [] => none
  | p :: ps, c :: cs => if c = p then consumeLit ps cs else none

/-- Consume the optional `(?:,\d+)?` count suffix.  When a comma is present
but not followed by digits the whole header match fails, exactly as the
regex does (dropping the optional group leaves a comma where the mandatory
space must follow). -/
def skipOptCount (cs : List Char) : Option (List Char) :=
  match cs with
  | ',' :: rest =>
    match parseNum rest with
    | some (_, rest2) => some rest2
    | none => none
  | _ => some cs

/-- Embeds `hunk_header_regex.match(line)`, returning capture group 2
(`new_start`) when the line is a hunk header.  A line is its character list. -/
def hunkNewStart (line : List Char) : Option ℕ := do
  let cs ← consumeLit ['@', '@', ' ', '-'] line
  let (_, cs) ← parseNum cs
  let cs ← skipOptCount cs
  let cs ← consumeLit [' ', '+'] cs
  let (n, cs) ← parseNum cs
  let cs ← skipOptCount cs
  let _ ← consumeLit [' ', '@', '@'] cs
  pure n

/-- `line.startswith(c)` for a one-character needle. -/
def startsWithChar (c : Char) : List Char → Bool
  | [] => false
  | d :: _ => d = c

/-- Embeds `patch.split("\n")`: split a character list at every newline.
The result is never empty, and splitting the empty text gives `[[]]`,
matching Python's `"".split("\n") == [""]`. -/
def splitOnNl : List Char → List (List Char)
  | [] => [[]]
  | c :: cs =>
    match splitOnNl cs with
    | [] => [[]]
    | l :: ls => if c = '\n' then [] :: l :: ls else (c :: l) :: ls

/-- One iteration of the `for line in lines` loop of
`parse_diff_to_changed_lines`: state is `(changed_lines, current_new_line)`. -/
def processLine (st : List ℕ × ℕ) (line : List Char) : List ℕ × ℕ :=
  match hunkNewStart line with
  | some n => (st.1, n)
  | none =>
    if startsWithChar '+' line then (setAdd st.1 st.2, st.2 + 1)
    else if startsWithChar ' ' line then (st.1, st.2 + 1)
    else if startsWithChar '-' line then st
    else st

/-- Embedding of `parse_diff_to_changed_lines`.  A missing (`None`) patch and
the empty string are both falsy in Python; the empty string models both. -/
def parse_diff_to_changed_lines (patch : String) : List ℕ :=
  if patch = "" then []
  else ((splitOnNl patch.toList).foldl processLine ([], 0)).1

/-! ## Spec-side restatement of the mapper (for the refinement claim)

`specMapperStep` follows the words of the specification's cursor algorithm
(spec §4.1 / claim C1), not the source: header lines reset the cursor and
are not recorded, `+` records then increments, a leading space increments,
`-` and every other line leave the cursor unchanged.  It is compared with
the source-derived `processLine` below. -/

/-- Modelled from the spec's words (claim C1): one cursor step. -/
def specMapperStep (st : List ℕ × ℕ) (line : List Char) : List ℕ × ℕ :=
  match hunkNewStart line with
  | some n => (st.1, n)
  | none =>
    if startsWithChar '+' line then (setAdd st.1 st.2, st.2 + 1)
    else if startsWithChar ' ' line then (st.1, st.2 + 1)
    else st

/-- Modelled from the spec's words (claim C1): the whole cursor algorithm,
line by line over the patch text, cursor initially zero. -/
def specChangedLineSet (patch : String) : List ℕ :=
  ((splitOnNl patch.toList).foldl specMapperStep ([], 0)).1

/-! ## Instrumented mapper run

`processLineInstr` is `processLine` with bookkeeping: it keeps every
recording event as a pair `(recorded value, hunk header in effect)`,
where the header component is `none` before the first hunk header.
It justifies the per-hunk bounds of the spec's §8 properties. -/

/-- `processLine` instrumented with the governing hunk header:
state is `(recording events, current_new_line, last header's new_start)`. -/
def processLineInstr (st : List (ℕ × Option ℕ) × ℕ × Option ℕ) (line : List Char) :
    List (ℕ × Option ℕ) × ℕ × Option ℕ :=
  match hunkNewStart line with
  | some n => (st.1, n, some n)
  | none =>
    if startsWithChar '+' line then (st.1 ++ [(st.2.1, st.2.2)], st.2.1 + 1, st.2.2)
    else if startsWithChar ' ' line then (st.1, st.2.1 + 1, st.2.2)
    else if startsWithChar '-' line then st
    else st

/-- The instrumented run of `parse_diff_to_changed_lines` on a patch. -/
def instrRun (patch : String) : List (ℕ × Option ℕ) × ℕ × Option ℕ :=
  (splitOnNl patch.toList).foldl processLineInstr ([], 0, none)

/-! ## Review Requester (`get_ai_review`)

The external `model.generate_content` call is a parameter returning either
an exception (`Except.error`) or the response text; `json.loads` is a
parameter returning `none` on a parse exception.  The fence stripping in
between is source code and is embedded exactly. -/

/-- A Candidate Comment as parsed from the AI's JSON: `item.get("line")` and
`item.get("message")` yield `none` when the key is absent. -/
structure ReviewItem where
  line : Option ℕ
  message : Option String
deriving DecidableEq

/-- Python `str.strip()` whitespace (ASCII subset). -/
def wsChar (c : Char) : Bool :=
  c = ' ' || c = '\t' || c = '\n' || c = '\r' || c = '\x0b' || c = '\x0c'

/-- Python `text.strip()` on a character list. -/
def stripChars (l : List Char) : List Char :=
  ((l.dropWhile wsChar).reverse.dropWhile wsChar).reverse

/-- Python `text.startswith(lit)`. -/
def startsWithLit : List Char → List Char → Bool
  | [], _ => true
  | _ :: _, [] => false
  | p :: ps, c :: cs => c = p && startsWithLit ps cs

/-- Python `text.endswith(lit)`. -/
def endsWithLit (lit l : List Char) : Bool :=
  startsWithLit lit.reverse l.reverse

/-- The markdown-fence cleanup of `get_ai_review`, ending with the final
`.strip()` that feeds `json.loads`. -/
def stripFences (text : List Char) : List Char :=
  let t := stripChars text
  let t := if startsWithLit "```json".toList t then t.drop 7 else t
  let t := if startsWithLit "```".toList t then t.drop 3 else t
  let t := if endsWithLit "```".toList t then t.take (t.length - 3) else t
  stripChars t

/-- Embedding of `get_ai_review`: the `try` block succeeds when the AI call
returns text and the stripped text parses; every failure path returns `[]`. -/
def get_ai_review (parseJson : List Char → Option (List ReviewItem))
    (generate : String → String → Except String String)
    (filename patch : String) : List ReviewItem :=
  match generate filename patch with
  | Except.error _ => []
  | Except.ok text =>
    match parseJson (stripFences text.toList) with
    | none => []
    | some items => items

/-! ## The `main` pipeline

External collaborators are parameters; printed lines and outward calls
(AI requests, the review submission) are returned as data. -/

/-- An Accepted Comment: the dict appended to `comments_to_post`. -/
structure AcceptedComment where
  path : String
  line : Option ℕ
  side : String
  body : Option String
deriving DecidableEq

/-- A changed file as reported by the pull-request source. -/
structure FileInfo where
  filename : String
  status : String
  patch : String
deriving DecidableEq

/-- The pull request context used by `main`. -/
structure PullRequest where
  number : ℕ
  title : String
  files : List FileInfo

/-- The arguments of the one `pr.create_review` call. -/
structure ReviewCall where
  body : String
  event : String
  comments : List AcceptedComment
deriving DecidableEq

/-- Outward side effects of a run. -/
inductive Effect
  | aiRequest (filename patch : String)
  | reviewSubmission (call : ReviewCall)
deriving DecidableEq

/-- How the process run ends: a normal return from `main`, or an uncaught
`KeyError` from `os.environ[key]`. -/
inductive RunResult
  | cleanExit
  | uncaughtError (key : String)
deriving DecidableEq

/-- The four environment lookups of `main`. -/
structure Env where
  github_token : Option String
  gemini_api_key : Option String
  github_event_path : Option String
  github_repository : Option String

/-- Python falsiness of `os.environ.get(...)`: absent or empty. -/
def falsyStr : Option String → Bool
  | none => true
  | some s => s = ""

/-- How Python's f-string prints `item.get("line")`. -/
def lineStr : Option ℕ → String
  | some n => toString n
  | none => "None"

/-- How Python's f-string prints `item.get("message")`. -/
def msgStr : Option String → String
  | some s => s
  | none => "None"

/-- Python `line in changed_lines`: `None` is never a member of a set of
integers. -/
def pyMem (line : Option ℕ) (s : List ℕ) : Bool :=
  match line with
  | some n => decide (n ∈ s)
  | none => false

/-- One iteration of the `for item in review_items` loop: state is
`(comments_to_post, printed lines)`. -/
def itemStep (filename : String) (changed : List ℕ)
    (st : List AcceptedComment × List String) (item : ReviewItem) :
    List AcceptedComment × List String :=
  if pyMem item.line changed then
    (st.1 ++ [⟨filename, item.line, "RIGHT", item.message⟩],
     st.2 ++ ["  - Comment on line " ++ lineStr item.line ++ ": " ++ msgStr item.message])
  else
    (st.1, st.2 ++ ["  - Skipped comment on line " ++ lineStr item.line
        ++ " (not in changed lines)"])

/-- Accumulated state of the `for file in files` loop. -/
structure LoopState where
  comments : List AcceptedComment
  logs : List String
  effects : List Effect
deriving DecidableEq

/-- One iteration of the `for file in files` loop of `main`. -/
def fileStep (ai : String → String → List ReviewItem) (st : LoopState)
    (file : FileInfo) : LoopState :=
  if file.status = "removed" then st
  else if file.patch = "" then
    { st with logs := st.logs ++ ["Skipping " ++ file.filename ++ " (no patch available)"] }
  else
    let changed := parse_diff_to_changed_lines file.patch
    let items := ai file.filename file.patch
    let logs1 := st.logs ++ ["Analyzing " ++ file.filename ++ "..."]
    let res := items.foldl (itemStep file.filename changed) (st.comments, logs1)
    { comments := res.1, logs := res.2,
      effects := st.effects ++ [Effect.aiRequest file.filename file.patch] }

/-- The whole `for file in files` loop. -/
def runFiles (ai : String → String → List ReviewItem) (files : List FileInfo)
    (init : LoopState) : LoopState :=
  files.foldl (fileStep ai) init

/-- The fixed arguments of the review submission for a comment batch. -/
def mkReviewCall (comments : List AcceptedComment) : ReviewCall :=
  ⟨"Gemini Code Review Summary", "COMMENT", comments⟩

/-- Recognises a review-submission effect. -/
def isSubmissionEffect : Effect → Bool
  | Effect.reviewSubmission _ => true
  | Effect.aiRequest _ _ => false

/-- The loop state of `main` just before the `for file in files` loop:
no comments, the `Reviewing PR ...` line printed, no outward calls yet. -/
def initState (pr : PullRequest) : LoopState :=
  ⟨[], ["Reviewing PR #" ++ toString pr.number ++ ": " ++ pr.title], []⟩

/-- The `if comments_to_post:` tail of `main`: the submission call and its
`try`/`except`.  Returns the printed lines and the submission effects. -/
def submitPhase (submit : ReviewCall → Except String Unit)
    (comments : List AcceptedComment) : List String × List Effect :=
  if comments = [] then (["No comments to post."], [])
  else
    match submit (mkReviewCall comments) with
    | Except.ok _ =>
      (["Posting " ++ toString comments.length ++ " comments...",
        "Review posted successfully."],
       [Effect.reviewSubmission (mkReviewCall comments)])
    | Except.error e =>
      (["Posting " ++ toString comments.length ++ " comments...",
        "Failed to post review: " ++ e],
       [Effect.reviewSubmission (mkReviewCall comments)])

/-- Embedding of `main`.  `eventHasPR` abstracts the
`"pull_request" in event_data` test on the parsed event payload; `ai`
abstracts `get_ai_review`'s outcome per file; `submit` abstracts
`pr.create_review`.  `os.environ[k]` on an absent key is the uncaught
`KeyError` outcome. -/
def mainModel (env : Env) (eventHasPR : Bool) (pr : PullRequest)
    (ai : String → String → List ReviewItem)
    (submit : ReviewCall → Except String Unit) :
    RunResult × List String × List Effect :=
  if falsyStr env.github_token || falsyStr env.gemini_api_key then
    (RunResult.cleanExit, ["Error: GITHUB_TOKEN and GEMINI_API_KEY are required."], [])
  else
    match env.github_event_path with
    | none => (RunResult.uncaughtError "GITHUB_EVENT_PATH", [], [])
    | some _ =>
      if eventHasPR then
        match env.github_repository with
        | none => (RunResult.uncaughtError "GITHUB_REPOSITORY", [], [])
        | some _ =>
          (RunResult.cleanExit,
           (runFiles ai pr.files (initState pr)).logs
             ++ (submitPhase submit (runFiles ai pr.files (initState pr)).comments).1,
           (runFiles ai pr.files (initState pr)).effects
             ++ (submitPhase submit (runFiles ai pr.files (initState pr)).comments).2)
      else (RunResult.cleanExit, ["Not a pull request event. Exiting."], [])

/-! ## Lemmas about the mapper -/

theorem mem_setAdd {n m : ℕ} {s : List ℕ} : n ∈ setAdd s m ↔ n ∈ s ∨ n = m := by
  unfold setAdd
  split_ifs with h
  · constructor
    · exact Or.inl
    · rintro (hn | rfl)
      · exact hn
      · exact h
  · simp [List.mem_append]

theorem processLine_eq_specMapperStep : processLine = specMapperStep := by
  funext st line
  unfold processLine specMapperStep
  cases hE : hunkNewStart line <;> simp only [hE]
  split_ifs <;> rfl

/-- C1: the Patch Line Mapper processes the patch line by line with a cursor
(headers reset it to new_start without being recorded, `+` records then
increments, a leading space increments, `-` and all other lines leave it
unchanged), and for every patch text `parse_diff_to_changed_lines` returns
exactly the set this algorithm produces. -/
theorem mapper_matches_cursor_algorithm (patch : String) :
    parse_diff_to_changed_lines patch = specChangedLineSet patch := by
  unfold parse_diff_to_changed_lines specChangedLineSet
  rw [processLine_eq_specMapperStep]
  by_cases h : patch = ""
  · rw [if_pos h, h]
    decide
  · rw [if_neg h]

/-- C3: on the patch `@@ -10,3 +20,3 @@` / ` ctx` / `+added1` / `+added2`,
`parse_diff_to_changed_lines` returns exactly the set containing 21 and 22. -/
theorem mapper_roundtrip_example :
    parse_diff_to_changed_lines "@@ -10,3 +20,3 @@\n ctx\n+added1\n+added2" = [21, 22]
    ∧ ∀ n : ℕ,
        n ∈ parse_diff_to_changed_lines "@@ -10,3 +20,3 @@\n ctx\n+added1\n+added2"
          ↔ (n = 21 ∨ n = 22) := by
  have h : parse_diff_to_changed_lines "@@ -10,3 +20,3 @@\n ctx\n+added1\n+added2"
      = [21, 22] := by decide
  refine ⟨h, fun n => ?_⟩
  rw [h]
  simp

theorem instr_mem_aux (lines : List (List Char)) :
    ∀ (s : List ℕ) (cur : ℕ) (recs : List (ℕ × Option ℕ)) (lh : Option ℕ),
      (∀ n, n ∈ s ↔ n ∈ recs.map Prod.fst) →
      ∀ n, n ∈ (lines.foldl processLine (s, cur)).1
        ↔ n ∈ (lines.foldl processLineInstr (recs, cur, lh)).1.map Prod.fst := by
  induction lines with
  | nil => intro s cur recs lh hinv n; exact hinv n
  | cons line rest ih =>
    intro s cur recs lh hinv n
    simp only [List.foldl_cons]
    unfold processLine processLineInstr
    cases hE : hunkNewStart line with
    | some m =>
      simp only [hE]
      exact ih s m recs (some m) hinv n
    | none =>
      simp only [hE]
      split_ifs with hp hs hd
      · refine ih (setAdd s cur) (cur + 1) (recs ++ [(cur, lh)]) lh (fun k => ?_) n
        rw [mem_setAdd, hinv k, List.map_append, List.mem_append]
        simp
      · exact ih s (cur + 1) recs lh hinv n
      · exact ih s cur recs lh hinv n
      · exact ih s cur recs lh hinv n

theorem instr_bound_aux (lines : List (List Char)) :
    ∀ (recs : List (ℕ × Option ℕ)) (cur : ℕ) (lh : Option ℕ),
      (∀ p ∈ recs, ∀ b, p.2 = some b → b ≤ p.1) →
      (∀ b, lh = some b → b ≤ cur) →
      ∀ p ∈ (lines.foldl processLineInstr (recs, cur, lh)).1, ∀ b, p.2 = some b → b ≤ p.1 := by
  induction lines with
  | nil => intro recs cur lh hrecs _ p hp; exact hrecs p hp
  | cons line rest ih =>
    intro recs cur lh hrecs hlh
    simp only [List.foldl_cons]
    unfold processLineInstr
    cases hE : hunkNewStart line with
    | some m =>
      simp only [hE]
      refine ih recs m (some m) hrecs (fun b hb => ?_)
      injection hb with hb
      omega
    | none =>
      simp only [hE]
      split_ifs with hp hs hd
      · refine ih (recs ++ [(cur, lh)]) (cur + 1) lh (fun p hp b hb => ?_)
          (fun b hb => Nat.le_succ_of_le (hlh b hb))
        rcases List.mem_append.mp hp with hin | hin
        · exact hrecs p hin b hb
        · rw [List.mem_singleton.mp hin] at hb ⊢
          exact hlh b hb
      · exact ih recs (cur + 1) lh hrecs (fun b hb => Nat.le_succ_of_le (hlh b hb))
      · exact ih recs cur lh hrecs hlh
      · exact ih recs cur lh hrecs hlh

theorem mapper_eq_instr_members (patch : String) :
    ∀ n, n ∈ parse_diff_to_changed_lines patch ↔ n ∈ (instrRun patch).1.map Prod.fst := by
  intro n
  unfold parse_diff_to_changed_lines instrRun
  by_cases h : patch = ""
  · rw [if_pos h, h]
    rw [show ((splitOnNl ("" : String).toList).foldl processLineInstr
        ([], 0, none)).1.map Prod.fst = ([] : List ℕ) from by decide]
  · rw [if_neg h]
    exact instr_mem_aux _ [] 0 [] none (by simp) n

theorem instr_records_bounded (patch : String) :
    ∀ p ∈ (instrRun patch).1, ∀ b, p.2 = some b → b ≤ p.1 := by
  intro p hp
  unfold instrRun at hp
  exact instr_bound_aux _ [] 0 none (by simp) (by simp) p hp

/-- C4: every Changed-Line Set member is a recorded value of the instrumented
run, and every recording made while some hunk header governs the cursor is at
least that header's new_start. -/
theorem mapper_member_ge_hunk_start (patch : String) :
    (∀ n, n ∈ parse_diff_to_changed_lines patch ↔ n ∈ (instrRun patch).1.map Prod.fst)
    ∧ ∀ p ∈ (instrRun patch).1, ∀ b, p.2 = some b → b ≤ p.1 :=
  ⟨mapper_eq_instr_members patch, instr_records_bounded patch⟩

/-- Witness for C4 at the patch `@@ -1 +5 @@` / `+a`: the single recording is
line 5 under the header with new_start 5, and 5 ≤ 5. -/
theorem mapper_member_ge_hunk_start_witness :
    ((5 : ℕ), (some 5 : Option ℕ)) ∈ (instrRun "@@ -1 +5 @@\n+a").1 ∧ (5 : ℕ) ≤ 5 :=
  ⟨by decide, (mapper_member_ge_hunk_start "@@ -1 +5 @@\n+a").2 (5, some 5) (by decide) 5 rfl⟩

/-- C5 counterexample: on the patch `+x` (an added line before any hunk
header) the Changed-Line Set contains 0, which is not strictly positive. -/
theorem mapper_member_zero_counterexample :
    ¬ ∀ n ∈ parse_diff_to_changed_lines "+x", 0 < n := by decide

/-- C5 amended: every Changed-Line Set member is a recorded value of the
instrumented run, and every value recorded while a hunk header with positive
new_start governs the cursor is strictly positive.  (A `+` line before any
hunk header records the initial cursor value 0.) -/
theorem mapper_member_positive_after_positive_hunk (patch : String) :
    (∀ n, n ∈ parse_diff_to_changed_lines patch ↔ n ∈ (instrRun patch).1.map Prod.fst)
    ∧ ∀ p ∈ (instrRun patch).1, ∀ b, p.2 = some b → 0 < b → 0 < p.1 :=
  ⟨mapper_eq_instr_members patch,
    fun p hp b hb hpos => lt_of_lt_of_le hpos (instr_records_bounded patch p hp b hb)⟩

/-- Witness for C5 (amended) at the patch `@@ -1 +5 @@` / `+a`: the recording
of line 5 is governed by the header with new_start 5 > 0, and 5 > 0. -/
theorem mapper_member_positive_after_positive_hunk_witness :
    ((5 : ℕ), (some 5 : Option ℕ)) ∈ (instrRun "@@ -1 +5 @@\n+a").1 ∧ (0 : ℕ) < 5 :=
  ⟨by decide,
    (mapper_member_positive_after_positive_hunk "@@ -1 +5 @@\n+a").2 (5, some 5) (by decide)
      5 rfl (by decide)⟩

/-! ## Lemmas about the comment filter -/

theorem pyMem_eq_true_iff {l : Option ℕ} {s : List ℕ} :
    pyMem l s = true ↔ ∃ n, l = some n ∧ n ∈ s := by
  cases l with
  | none => simp [pyMem]
  | some n => simp [pyMem]

theorem itemStep_subset (fn : String) (changed : List ℕ)
    (st : List AcceptedComment × List String) (item : ReviewItem) :
    ∀ c ∈ (itemStep fn changed st item).1,
      c ∈ st.1 ∨ (c.path = fn ∧ ∃ n, c.line = some n ∧ n ∈ changed) := by
  intro c hc
  unfold itemStep at hc
  by_cases hm : pyMem item.line changed = true
  · rw [if_pos hm] at hc
    rcases List.mem_append.mp hc with h | h
    · exact Or.inl h
    · rw [List.mem_singleton] at h
      subst h
      rcases pyMem_eq_true_iff.mp hm with ⟨n, hn, hmem⟩
      exact Or.inr ⟨rfl, n, hn, hmem⟩
  · rw [if_neg hm] at hc
    exact Or.inl hc

theorem itemsFold_subset (fn : String) (changed : List ℕ) :
    ∀ (items : List ReviewItem) (st : List AcceptedComment × List String),
      ∀ c ∈ (items.foldl (itemStep fn changed) st).1,
        c ∈ st.1 ∨ (c.path = fn ∧ ∃ n, c.line = some n ∧ n ∈ changed) := by
  intro items
  induction items with
  | nil => intro st c hc; exact Or.inl hc
  | cons item rest ih =>
    intro st c hc
    simp only [List.foldl_cons] at hc
    rcases ih (itemStep fn changed st item) c hc with h | h
    · exact itemStep_subset fn changed st item c h
    · exact Or.inr h

theorem fileStep_subset (ai : String → String → List ReviewItem) (st : LoopState)
    (file : FileInfo) :
    ∀ c ∈ (fileStep ai st file).comments,
      c ∈ st.comments
      ∨ (c.path = file.filename
          ∧ ∃ n, c.line = some n ∧ n ∈ parse_diff_to_changed_lines file.patch) := by
  intro c hc
  unfold fileStep at hc
  split_ifs at hc with h1 h2
  · exact Or.inl hc
  · exact Or.inl hc
  · exact itemsFold_subset _ _ _ _ c hc

theorem runFiles_subset (ai : String → String → List ReviewItem) :
    ∀ (files : List FileInfo) (init : LoopState),
      ∀ c ∈ (runFiles ai files init).comments,
        c ∈ init.comments
        ∨ ∃ f ∈ files, c.path = f.filename
            ∧ ∃ n, c.line = some n ∧ n ∈ parse_diff_to_changed_lines f.patch := by
  intro files
  induction files with
  | nil => intro init c hc; exact Or.inl hc
  | cons f rest ih =>
    intro init c hc
    unfold runFiles at hc
    simp only [List.foldl_cons] at hc
    rcases ih (fileStep ai init f) c hc with h | h
    · rcases fileStep_subset ai init f c h with h2 | h2
      · exact Or.inl h2
      · exact Or.inr ⟨f, List.mem_cons_self f rest, h2⟩
    · rcases h with ⟨g, hg, hrest⟩
      exact Or.inr ⟨g, List.mem_cons_of_mem f hg, hrest⟩

/-- C2: a candidate comment is appended to the batch iff its line is in the
Changed-Line Set of the file (otherwise the batch is left unchanged and a
skip line is printed); every comment accepted by the file loop names some
processed file and its line belongs to that file patch's Changed-Line Set;
and on the set {5, 7} with candidate lines 5, 6 and 7, exactly the line-5
and line-7 candidates are accepted. -/
theorem comment_filter_accepts_iff_changed :
    (∀ (ai : String → String → List ReviewItem) (files : List FileInfo) (init : LoopState),
        init.comments = [] →
        ∀ c ∈ (runFiles ai files init).comments,
          ∃ f ∈ files, c.path = f.filename
            ∧ ∃ n, c.line = some n ∧ n ∈ parse_diff_to_changed_lines f.patch)
    ∧ (∀ (fn : String) (changed : List ℕ) (st : List AcceptedComment × List String)
          (item : ReviewItem) (n : ℕ), item.line = some n →
        (n ∈ changed →
          itemStep fn changed st item
            = (st.1 ++ [⟨fn, some n, "RIGHT", item.message⟩],
               st.2 ++ ["  - Comment on line " ++ lineStr (some n) ++ ": "
                  ++ msgStr item.message]))
        ∧ (n ∉ changed →
          itemStep fn changed st item
            = (st.1, st.2 ++ ["  - Skipped comment on line " ++ lineStr (some n)
                ++ " (not in changed lines)"])))
    ∧ (([⟨some 5, some "a"⟩, ⟨some 6, some "b"⟩, ⟨some 7, some "c"⟩] : List ReviewItem).foldl
          (itemStep "f" [5, 7]) ([], [])).1
        = [⟨"f", some 5, "RIGHT", some "a"⟩, ⟨"f", some 7, "RIGHT", some "c"⟩] := by
  refine ⟨?_, ?_, by decide⟩
  · intro ai files init hinit c hc
    rcases runFiles_subset ai files init c hc with h | h
    · rw [hinit] at h
      exact absurd h (List.not_mem_nil c)
    · exact h
  · intro fn changed st item n hline
    constructor
    · intro hmem
      have hm : pyMem item.line changed = true := by
        rw [hline]
        simpa [pyMem] using hmem
      unfold itemStep
      rw [if_pos hm, hline]
    · intro hmem
      have hm : pyMem item.line changed = false := by
        rw [hline]
        simp [pyMem, hmem]
      unfold itemStep
      rw [if_neg (by simp [hm]), hline]

/-- Witness for C2: on one modified file with patch `@@ -1 +5 @@` / `+a` and
one candidate on line 5, the accepted comment names that file and its line 5
lies in the Changed-Line Set of that patch; and the line-6 candidate against
the set {5, 7} only prints a skip line. -/
theorem comment_filter_accepts_iff_changed_witness :
    (∃ f ∈ [(⟨"f", "modified", "@@ -1 +5 @@\n+a"⟩ : FileInfo)],
        (⟨"f", some 5, "RIGHT", some "m"⟩ : AcceptedComment).path = f.filename
          ∧ ∃ n, (⟨"f", some 5, "RIGHT", some "m"⟩ : AcceptedComment).line = some n
              ∧ n ∈ parse_diff_to_changed_lines f.patch)
    ∧ itemStep "f" [5, 7] (([] : List AcceptedComment), ([] : List String)) ⟨some 6, some "b"⟩
        = (([] : List AcceptedComment),
           ([] : List String) ++ ["  - Skipped comment on line " ++ lineStr (some 6)
              ++ " (not in changed lines)"]) :=
  ⟨comment_filter_accepts_iff_changed.1 (fun _ _ => [⟨some 5, some "m"⟩])
      [⟨"f", "modified", "@@ -1 +5 @@\n+a"⟩] ⟨[], [], []⟩ rfl
      ⟨"f", some 5, "RIGHT", some "m"⟩ (by decide),
    (comment_filter_accepts_iff_changed.2.1 "f" [5, 7] ([], []) ⟨some 6, some "b"⟩ 6 rfl).2
      (by decide)⟩

/-- C10: a review item whose "line" key is absent (lookup yields None) is
never accepted and never raises: None is not a member of any Changed-Line
Set, the skip branch runs, and the accepted batch is unchanged. -/
theorem missing_line_key_skipped :
    ∀ (fn : String) (changed : List ℕ) (st : List AcceptedComment × List String)
      (item : ReviewItem), item.line = none →
      pyMem item.line changed = false
      ∧ itemStep fn changed st item
          = (st.1, st.2 ++ ["  - Skipped comment on line None (not in changed lines)"]) := by
  intro fn changed st item hline
  have hm : pyMem item.line changed = false := by rw [hline]; rfl
  refine ⟨hm, ?_⟩
  unfold itemStep
  rw [if_neg (by simp [hm]), hline]
  rfl

/-- Witness for C10: the candidate `{message: "m"}` with no line key against
the set {5, 7} is skipped and appends nothing. -/
theorem missing_line_key_skipped_witness :
    pyMem (none : Option ℕ) [5, 7] = false
    ∧ itemStep "f" [5, 7] (([] : List AcceptedComment), ([] : List String)) ⟨none, some "m"⟩
        = (([] : List AcceptedComment),
           ([] : List String) ++ ["  - Skipped comment on line None (not in changed lines)"]) :=
  missing_line_key_skipped "f" [5, 7] ([], []) ⟨none, some "m"⟩ rfl

/-! ## Review Requester and dispatch theorems -/

/-- C6: `get_ai_review` always returns a list of candidate comments — on an
exception from the AI call it returns the empty list, on response text whose
fence-stripped form does not parse it returns the empty list, and on a parsed
response it returns exactly the parsed items; no exception reaches the
caller. -/
theorem get_ai_review_swallows_failures :
    ∀ (parseJson : List Char → Option (List ReviewItem))
      (generate : String → String → Except String String) (fn p : String),
      (∀ e, generate fn p = Except.error e → get_ai_review parseJson generate fn p = [])
      ∧ (∀ t, generate fn p = Except.ok t → parseJson (stripFences t.toList) = none →
          get_ai_review parseJson generate fn p = [])
      ∧ (∀ t items, generate fn p = Except.ok t →
          parseJson (stripFences t.toList) = some items →
          get_ai_review parseJson generate fn p = items) := by
  intro pj gen fn p
  refine ⟨fun e he => ?_, fun t ht hn => ?_, fun t items ht hs => ?_⟩
  · unfold get_ai_review
    rw [he]
  · unfold get_ai_review
    simp only [ht, hn]
  · unfold get_ai_review
    simp only [ht, hs]

/-- Witness for C6: a failing call yields `[]`, a fenced non-JSON response
yields `[]`, and a fenced parsed response yields the parsed items. -/
theorem get_ai_review_swallows_failures_witness :
    get_ai_review (fun _ => some [⟨some 3, some "m"⟩]) (fun _ _ => Except.error "boom")
        "f" "+x" = []
    ∧ get_ai_review (fun _ => none) (fun _ _ => Except.ok "```json\nnot json\n```")
        "f" "+x" = []
    ∧ get_ai_review (fun _ => some [⟨some 3, some "m"⟩])
        (fun _ _ => Except.ok "```json\n[]\n```") "f" "+x" = [⟨some 3, some "m"⟩] :=
  ⟨(get_ai_review_swallows_failures _ _ "f" "+x").1 "boom" rfl,
   (get_ai_review_swallows_failures _ _ "f" "+x").2.1 "```json\nnot json\n```" rfl rfl,
   (get_ai_review_swallows_failures _ _ "f" "+x").2.2 "```json\n[]\n```"
      [⟨some 3, some "m"⟩] rfl rfl⟩

theorem fileStep_effects_filter (ai : String → String → List ReviewItem)
    (st : LoopState) (file : FileInfo) :
    (fileStep ai st file).effects.filter isSubmissionEffect
      = st.effects.filter isSubmissionEffect := by
  unfold fileStep
  split_ifs with h1 h2
  · rfl
  · rfl
  · simp [List.filter_append, isSubmissionEffect]

theorem runFiles_effects_filter (ai : String → String → List ReviewItem) :
    ∀ (files : List FileInfo) (init : LoopState),
      (runFiles ai files init).effects.filter isSubmissionEffect
        = init.effects.filter isSubmissionEffect := by
  intro files
  induction files with
  | nil => intro init; rfl
  | cons f rest ih =>
    intro init
    unfold runFiles
    simp only [List.foldl_cons]
    rw [show rest.foldl (fileStep ai) (fileStep ai init f)
        = runFiles ai rest (fileStep ai init f) from rfl,
      ih, fileStep_effects_filter]

theorem submitPhase_effects (submit : ReviewCall → Except String Unit)
    (comments : List AcceptedComment) :
    (submitPhase submit comments).2
      = if comments = [] then [] else [Effect.reviewSubmission (mkReviewCall comments)] := by
  unfold submitPhase
  split_ifs with h
  · rfl
  · cases submit (mkReviewCall comments) <;> rfl

theorem submitPhase_effects_filter (submit : ReviewCall → Except String Unit)
    (comments : List AcceptedComment) :
    ((submitPhase submit comments).2).filter isSubmissionEffect
      = if comments = [] then [] else [Effect.reviewSubmission (mkReviewCall comments)] := by
  rw [submitPhase_effects]
  split_ifs with h
  · rfl
  · rfl

/-- C7: with a non-empty batch exactly one submission call is made, with the
fixed summary body and the COMMENT disposition (never APPROVE or
REQUEST_CHANGES), bundling the whole batch; with an empty batch no
submission call is made; and a configured run makes exactly the submission
calls the batch of the file loop dictates. -/
theorem single_batched_comment_submission :
    (∀ (submit : ReviewCall → Except String Unit) (comments : List AcceptedComment),
        (comments ≠ [] →
          (submitPhase submit comments).2
              = [Effect.reviewSubmission (mkReviewCall comments)]
            ∧ (mkReviewCall comments).body = "Gemini Code Review Summary"
            ∧ (mkReviewCall comments).event = "COMMENT"
            ∧ (mkReviewCall comments).comments = comments
            ∧ (mkReviewCall comments).event ≠ "APPROVE"
            ∧ (mkReviewCall comments).event ≠ "REQUEST_CHANGES")
        ∧ (comments = [] → (submitPhase submit comments).2 = []))
    ∧ (∀ (env : Env) (hasPR : Bool) (pr : PullRequest)
          (ai : String → String → List ReviewItem) (submit : ReviewCall → Except String Unit),
        (falsyStr env.github_token || falsyStr env.gemini_api_key) = false →
        env.github_event_path ≠ none → hasPR = true → env.github_repository ≠ none →
        ((mainModel env hasPR pr ai submit).2.2).filter isSubmissionEffect
          = if (runFiles ai pr.files (initState pr)).comments = [] then []
            else [Effect.reviewSubmission
                (mkReviewCall (runFiles ai pr.files (initState pr)).comments)]) := by
  constructor
  · intro submit comments
    constructor
    · intro h
      refine ⟨?_, rfl, rfl, rfl, show ("COMMENT" : String) ≠ "APPROVE" from by decide,
        show ("COMMENT" : String) ≠ "REQUEST_CHANGES" from by decide⟩
      rw [submitPhase_effects, if_neg h]
    · intro h
      rw [submitPhase_effects, if_pos h]
  · intro env hasPR pr ai submit hcred hep hPR hrepo
    unfold mainModel
    rw [if_neg (by simp [hcred])]
    cases hep2 : env.github_event_path with
    | none => exact absurd hep2 hep
    | some p =>
      simp only [hep2, hPR, if_true]
      cases hrepo2 : env.github_repository with
      | none => exact absurd hrepo2 hrepo
      | some r =>
        simp only [hrepo2, List.filter_append, runFiles_effects_filter,
          submitPhase_effects_filter]
        rfl

/-- Witness for C7: a singleton batch produces exactly one COMMENT-disposition
submission carrying it, and a configured one-file run with one accepted
candidate produces exactly the submission its batch dictates. -/
theorem single_batched_comment_submission_witness :
    ((submitPhase (fun _ => Except.ok ()) [⟨"f", some 5, "RIGHT", some "m"⟩]).2
        = [Effect.reviewSubmission (mkReviewCall [⟨"f", some 5, "RIGHT", some "m"⟩])]
      ∧ (mkReviewCall [⟨"f", some 5, "RIGHT", some "m"⟩]).body = "Gemini Code Review Summary"
      ∧ (mkReviewCall [⟨"f", some 5, "RIGHT", some "m"⟩]).event = "COMMENT"
      ∧ (mkReviewCall [⟨"f", some 5, "RIGHT", some "m"⟩]).comments
          = [⟨"f", some 5, "RIGHT", some "m"⟩]
      ∧ (mkReviewCall [⟨"f", some 5, "RIGHT", some "m"⟩]).event ≠ "APPROVE"
      ∧ (mkReviewCall [⟨"f", some 5, "RIGHT", some "m"⟩]).event ≠ "REQUEST_CHANGES")
    ∧ ((mainModel ⟨some "t", some "k", some "p", some "r"⟩ true
            ⟨1, "T", [⟨"f", "modified", "@@ -1 +5 @@\n+a"⟩]⟩
            (fun _ _ => [⟨some 5, some "m"⟩]) (fun _ => Except.ok ())).2.2).filter
          isSubmissionEffect
        = if (runFiles (fun _ _ => [⟨some 5, some "m"⟩])
              [⟨"f", "modified", "@@ -1 +5 @@\n+a"⟩]
              (initState ⟨1, "T", [⟨"f", "modified", "@@ -1 +5 @@\n+a"⟩]⟩)).comments = []
          then []
          else [Effect.reviewSubmission
              (mkReviewCall (runFiles (fun _ _ => [⟨some 5, some "m"⟩])
                [⟨"f", "modified", "@@ -1 +5 @@\n+a"⟩]
                (initState ⟨1, "T", [⟨"f", "modified", "@@ -1 +5 @@\n+a"⟩]⟩)).comments)] :=
  ⟨(single_batched_comment_submission.1 (fun _ => Except.ok ())
      [⟨"f", some 5, "RIGHT", some "m"⟩]).1 (by decide),
   single_batched_comment_submission.2 ⟨some "t", some "k", some "p", some "r"⟩ true
      ⟨1, "T", [⟨"f", "modified", "@@ -1 +5 @@\n+a"⟩]⟩
      (fun _ _ => [⟨some 5, some "m"⟩]) (fun _ => Except.ok ())
      (by decide) (by decide) rfl (by decide)⟩

/-- C8: an exception raised by the review submission call is caught: the
failure line is printed, the submission attempt is the only submission
effect, and the run still ends in a clean exit — even when every submission
call fails. -/
theorem submission_failure_caught :
    (∀ (submit : ReviewCall → Except String Unit) (comments : List AcceptedComment)
        (e : String),
        comments ≠ [] → submit (mkReviewCall comments) = Except.error e →
        submitPhase submit comments
          = (["Posting " ++ toString comments.length ++ " comments...",
              "Failed to post review: " ++ e],
             [Effect.reviewSubmission (mkReviewCall comments)]))
    ∧ (∀ (env : Env) (hasPR : Bool) (pr : PullRequest)
          (ai : String → String → List ReviewItem) (submit : ReviewCall → Except String Unit),
        (falsyStr env.github_token || falsyStr env.gemini_api_key) = false →
        env.github_event_path ≠ none → env.github_repository ≠ none →
        (∀ call, ∃ e, submit call = Except.error e) →
        (mainModel env hasPR pr ai submit).1 = RunResult.cleanExit) := by
  constructor
  · intro submit comments e h hsub
    unfold submitPhase
    rw [if_neg h, hsub]
  · intro env hasPR pr ai submit hcred hep hrepo _
    unfold mainModel
    rw [if_neg (by simp [hcred])]
    cases hep2 : env.github_event_path with
    | none => exact absurd hep2 hep
    | some p =>
      simp only [hep2]
      cases hasPR with
      | false => rfl
      | true =>
        simp only [if_true]
        cases hrepo2 : env.github_repository with
        | none => exact absurd hrepo2 hrepo
        | some r => simp only [hrepo2]

/-- Witness for C8: a singleton batch with a submit function that raises
produces the failure line and a clean exit of the whole run. -/
theorem submission_failure_caught_witness :
    submitPhase (fun _ => Except.error "boom") [⟨"f", some 5, "RIGHT", some "m"⟩]
      = (["Posting " ++ toString ([⟨"f", some 5, "RIGHT", some "m"⟩]
            : List AcceptedComment).length ++ " comments...",
          "Failed to post review: " ++ "boom"],
         [Effect.reviewSubmission (mkReviewCall [⟨"f", some 5, "RIGHT", some "m"⟩])])
    ∧ (mainModel ⟨some "t", some "k", some "p", some "r"⟩ true
          ⟨1, "T", [⟨"f", "modified", "@@ -1 +5 @@\n+a"⟩]⟩
          (fun _ _ => [⟨some 5, some "m"⟩]) (fun _ => Except.error "boom")).1
        = RunResult.cleanExit :=
  ⟨submission_failure_caught.1 (fun _ => Except.error "boom")
      [⟨"f", some 5, "RIGHT", some "m"⟩] "boom" (by decide) rfl,
   submission_failure_caught.2 ⟨some "t", some "k", some "p", some "r"⟩ true
      ⟨1, "T", [⟨"f", "modified", "@@ -1 +5 @@\n+a"⟩]⟩
      (fun _ _ => [⟨some 5, some "m"⟩]) (fun _ => Except.error "boom")
      (by decide) (by decide) (by decide) (fun _ => ⟨"boom", rfl⟩)⟩

/-- C9 counterexample: with both credentials present but the event-payload
location absent, the run ends in an uncaught KeyError — not in the
printed-message clean exit the claim requires — though no AI request or
submission is made. -/
theorem missing_event_path_uncaught_counterexample :
    mainModel ⟨some "t", some "k", none, some "r"⟩ true ⟨1, "T", []⟩ (fun _ _ => [])
        (fun _ => Except.ok ())
      = (RunResult.uncaughtError "GITHUB_EVENT_PATH", [], [])
    ∧ RunResult.uncaughtError "GITHUB_EVENT_PATH" ≠ RunResult.cleanExit := by
  exact ⟨rfl, by decide⟩

/-- C9 amended: a missing or empty hosting-platform or AI-service credential
causes a printed message and a clean exit with no side effects; a missing
event-payload location (credentials present), or a missing repository
identifier (credentials present, pull-request event), instead ends the run
with an uncaught KeyError — still with no AI request and no submission. -/
theorem config_failure_modes :
    ∀ (env : Env) (hasPR : Bool) (pr : PullRequest)
      (ai : String → String → List ReviewItem) (submit : ReviewCall → Except String Unit),
      ((falsyStr env.github_token || falsyStr env.gemini_api_key) = true →
        mainModel env hasPR pr ai submit
          = (RunResult.cleanExit,
             ["Error: GITHUB_TOKEN and GEMINI_API_KEY are required."], []))
      ∧ ((falsyStr env.github_token || falsyStr env.gemini_api_key) = false →
          env.github_event_path = none →
          mainModel env hasPR pr ai submit
            = (RunResult.uncaughtError "GITHUB_EVENT_PATH", [], []))
      ∧ ((falsyStr env.github_token || falsyStr env.gemini_api_key) = false →
          env.github_event_path ≠ none → hasPR = true → env.github_repository = none →
          mainModel env hasPR pr ai submit
            = (RunResult.uncaughtError "GITHUB_REPOSITORY", [], [])) := by
  intro env hasPR pr ai submit
  refine ⟨fun h => ?_, fun hcred hep => ?_, fun hcred hep hPR hrepo => ?_⟩
  · unfold mainModel
    rw [if_pos h]
  · unfold mainModel
    rw [if_neg (by simp [hcred])]
    simp only [hep]
  · unfold mainModel
    rw [if_neg (by simp [hcred])]
    cases hep2 : env.github_event_path with
    | none => exact absurd hep2 hep
    | some p =>
      simp only [hep2, hPR, if_true, hrepo]

/-- Witness for C9 (amended): a missing GITHUB_TOKEN prints the error line
and exits cleanly with no effects; present credentials with a missing
GITHUB_EVENT_PATH, or with a missing GITHUB_REPOSITORY on a pull-request
event, end in the respective uncaught KeyError with no effects. -/
theorem config_failure_modes_witness :
    mainModel ⟨none, some "k", some "p", some "r"⟩ true ⟨1, "T", []⟩ (fun _ _ => [])
        (fun _ => Except.ok ())
      = (RunResult.cleanExit, ["Error: GITHUB_TOKEN and GEMINI_API_KEY are required."], [])
    ∧ mainModel ⟨some "t", some "k", none, some "r"⟩ true ⟨1, "T", []⟩ (fun _ _ => [])
        (fun _ => Except.ok ())
      = (RunResult.uncaughtError "GITHUB_EVENT_PATH", [], [])
    ∧ mainModel ⟨some "t", some "k", some "p", none⟩ true ⟨1, "T", []⟩ (fun _ _ => [])
        (fun _ => Except.ok ())
      = (RunResult.uncaughtError "GITHUB_REPOSITORY", [], []) :=
  ⟨(config_failure_modes ⟨none, some "k", some "p", some "r"⟩ true ⟨1, "T", []⟩
      (fun _ _ => []) (fun _ => Except.ok ())).1 (by decide),
   (config_failure_modes ⟨some "t", some "k", none, some "r"⟩ true ⟨1, "T", []⟩
      (fun _ _ => []) (fun _ => Except.ok ())).2.1 (by decide) rfl,
   (config_failure_modes ⟨some "t", some "k", some "p", none⟩ true ⟨1, "T", []⟩
      (fun _ _ => []) (fun _ => Except.ok ())).2.2 (by decide) (by decide) rfl rfl⟩

end GeminiReview

